import Mathlib

/-!
Shallow embedding of the core of the `orbital-orion` repository:
the fiber-tree traversal engine (`src/core/fiber/traversal.ts`),
the record-extraction parsers (`src/core/parsers/message-parser.ts`),
the token-bucket rate limiter (`src/shell/anti-detection/rate-limiter.ts`),
and the drift-fingerprint hash (`src/shell/anti-detection/version-guard.ts`).

Conventions of the embedding:
* JavaScript values flowing into the parsers are modelled by the inductive
  `JSValue` (null, undefined, booleans, non-NaN numbers as rationals, NaN,
  strings, and plain objects as association lists).
* The `Result<T, E>` union of `src/core/result.ts` is the inductive `Result`.
* Wall-clock time, token counts and rates are rationals; every operation of
  the rate limiter that reads `Date.now()` takes the current instant as an
  explicit argument, and the one call to `Math.random()` is an explicit
  argument `rand` in `[0,1]`.
* The upward parent chain of a fiber node is a list (the node itself first,
  `null` = the empty tail); the child/sibling-linked downward structure is
  the inductive `FiberTree` (with `nil` standing for a null link).
* 32-bit signed wrap-around (`| 0` and `<< 5` in JS) is explicit integer
  arithmetic through `toInt32`.
-/

namespace Scraper

/-- The two-variant Result union of `src/core/result.ts`. -/
inductive Result (α ε : Type) where
  | ok (value : α)
  | err (error : ε)
deriving DecidableEq, Repr

/-- Returns `true` exactly on the success variant (the `ok` discriminant field). -/
def Result.isOk {α ε : Type} : Result α ε → Bool
  | .ok _ => true
  | .err _ => false

/-- The closed tag set of `ParseErrorType` in `src/core/types/index.ts`. -/
inductive ParseErrorType where
  | FIBER_NOT_FOUND
  | INVALID_PROPS
  | MISSING_REQUIRED_FIELD
  | INVALID_MESSAGE_FORMAT
  | TRAVERSAL_FAILED
  | VERSION_MISMATCH
deriving DecidableEq, Repr

/-- Mirror of `ParseError` in `src/core/types/index.ts` (the optional context bag is
not used by any of the embedded code paths). -/
structure ParseError where
  type : ParseErrorType
  message : String
deriving DecidableEq, Repr

/-! ## Tree traversal engine (`src/core/fiber/traversal.ts`) -/

/-- The recursive worker of `traverseUpwards`: walks the remaining parent
chain, mirroring the source order of checks — null first, then the depth
cutoff (`depth > maxDepth`), then the predicate. -/
def traverseUpwardsGo {α : Type} (p : α → Bool) (maxDepth : ℕ) :
    List α → ℕ → Result α ParseError
  | [], _ =>
      .err ⟨.TRAVERSAL_FAILED, "Reached root of fiber tree without finding match"⟩
  | n :: rest, depth =>
      if depth > maxDepth then
        .err ⟨.TRAVERSAL_FAILED,
          "Max depth " ++ toString maxDepth ++ " exceeded during upward traversal"⟩
      else if p n then .ok n
      else traverseUpwardsGo p maxDepth rest (depth + 1)

/-- Embeds `traverseUpwards(fiberNode, predicate, maxDepth)`: the starting node and
its ancestor chain are given as a list (`chain.head?` is the starting node at
depth 0, each `tail` step is one `current.return` link, the empty list is a
null link). -/
def traverseUpwards {α : Type} (chain : List α) (p : α → Bool)
    (maxDepth : ℕ) : Result α ParseError :=
  traverseUpwardsGo p maxDepth chain 0

/-- The child/sibling-linked downward structure of `RawFiberNode`; `nil`
stands for a null `child`/`sibling` link. -/
inductive FiberTree (α : Type) where
  | nil : FiberTree α
  | node (val : α) (child : FiberTree α) (sibling : FiberTree α) : FiberTree α
deriving DecidableEq, Repr

/-- The recursive worker of `traverseDownwards`, in source order: null check,
depth cutoff (`depth > maxDepth`), predicate on the current node, then the
child subtree at `depth + 1`, then — only if that failed — the sibling
subtree, also at `depth + 1`. -/
def traverseDownwardsGo {α : Type} (p : α → Bool) (maxDepth : ℕ) :
    FiberTree α → ℕ → Result α ParseError
  | .nil, _ => .err ⟨.TRAVERSAL_FAILED, "No matching node found in subtree"⟩
  | .node v c s, depth =>
      if depth > maxDepth then
        .err ⟨.TRAVERSAL_FAILED,
          "Max depth " ++ toString maxDepth ++ " exceeded during downward traversal"⟩
      else if p v then .ok v
      else
        match traverseDownwardsGo p maxDepth c (depth + 1) with
        | .ok n => .ok n
        | .err _ => traverseDownwardsGo p maxDepth s (depth + 1)

/-- Embeds `traverseDownwards(fiberNode, predicate, maxDepth)` from
`src/core/fiber/traversal.ts`. -/
def traverseDownwards {α : Type} (t : FiberTree α) (p : α → Bool)
    (maxDepth : ℕ) : Result α ParseError :=
  traverseDownwardsGo p maxDepth t 0

/-- The recursive worker of `collectNodes`, threading the mutable `results`
array as an accumulator: entering a non-null node first checks
`results.length >= maxNodes` and stops without testing the node, otherwise
tests the predicate, pushes on a match, and recurses into child then
sibling. -/
def collectNodesGo {α : Type} (p : α → Bool) (maxNodes : ℕ) :
    FiberTree α → List α → List α
  | .nil, acc => acc
  | .node v c s, acc =>
      if acc.length ≥ maxNodes then acc
      else
        let acc1 := if p v then acc ++ [v] else acc
        let acc2 := collectNodesGo p maxNodes c acc1
        collectNodesGo p maxNodes s acc2

/-- Embeds `collectNodes(fiberNode, predicate, maxNodes)` from
`src/core/fiber/traversal.ts`. -/
def collectNodes {α : Type} (t : FiberTree α) (p : α → Bool)
    (maxNodes : ℕ) : List α :=
  collectNodesGo p maxNodes t []

/-- The nodes the downward recursion visits in order, with the recursion's
depth counter (which increases on sibling steps as well as child steps, as in
the source) bounded by `maxDepth`. -/
def boundedPreorder {α : Type} (maxDepth : ℕ) :
    FiberTree α → ℕ → List α
  | .nil, _ => []
  | .node v c s, depth =>
      if depth > maxDepth then []
      else v :: (boundedPreorder maxDepth c (depth + 1) ++
                 boundedPreorder maxDepth s (depth + 1))

/-- Every reachable node paired with the depth the downward recursion
assigns it (child and sibling steps both add one). -/
def preorderDepths {α : Type} : FiberTree α → ℕ → List (α × ℕ)
  | .nil, _ => []
  | .node v c s, depth =>
      (v, depth) :: (preorderDepths c (depth + 1) ++ preorderDepths s (depth + 1))

/-- The unbounded visit order: current node, then the child subtree, then
the sibling subtree. -/
def preorder {α : Type} : FiberTree α → List α
  | .nil => []
  | .node v c s => v :: (preorder c ++ preorder s)

/-! ## Record extraction pipeline (`src/core/parsers/message-parser.ts`) -/

/-- Untyped JavaScript values reaching the parsers: null, undefined,
booleans, non-NaN numbers (as exact rationals), NaN (which has JS type
"number" but fails every NaN check), strings, and plain objects as
association lists of own properties. -/
inductive JSValue where
  | null : JSValue
  | undef : JSValue
  | bool (b : Bool) : JSValue
  | num (q : ℚ) : JSValue
  | nan : JSValue
  | str (s : String) : JSValue
  | obj (fields : List (String × JSValue)) : JSValue

/-- JS `typeof`, restricted to the modelled values. -/
def typeofStr : JSValue → String
  | .null => "object"
  | .undef => "undefined"
  | .bool _ => "boolean"
  | .num _ => "number"
  | .nan => "number"
  | .str _ => "string"
  | .obj _ => "object"

/-- Property access `o[k]` on an association list: the first binding wins,
a missing property reads as undefined. -/
def lookupField : List (String × JSValue) → String → JSValue
  | [], _ => .undef
  | (k, v) :: rest, key => if k = key then v else lookupField rest key

/-- Tests `v === null || v === undefined`. -/
def isNullOrUndef : JSValue → Bool
  | .null => true
  | .undef => true
  | _ => false

/-- Embeds `parseString(value, fieldName)`: succeeds exactly on strings, otherwise
an INVALID_PROPS error naming the field and the JS type seen. -/
def parseString (value : JSValue) (fieldName : String) :
    Result String ParseError :=
  match value with
  | .str s => .ok s
  | v => .err ⟨.INVALID_PROPS,
      "Expected string for " ++ fieldName ++ ", got " ++ typeofStr v⟩

/-- Embeds `parseNumber(value, fieldName)`: succeeds exactly on non-NaN numbers. -/
def parseNumber (value : JSValue) (fieldName : String) :
    Result ℚ ParseError :=
  match value with
  | .num q => .ok q
  | v => .err ⟨.INVALID_PROPS,
      "Expected number for " ++ fieldName ++ ", got " ++ typeofStr v⟩

/-- Embeds `parseBoolean(value)` — the spec's `coerceBoolean`: true for boolean
`true`, the string `"true"`, or the number `1`; false otherwise. -/
def parseBoolean : JSValue → Bool
  | .bool true => true
  | .str s => s = "true"
  | .num q => q = 1
  | _ => false

/-- Embeds `parseOptionalString(value)`: the string itself, else null. -/
def parseOptionalString : JSValue → Option String
  | .str s => some s
  | _ => none

/-- Embeds `parseOptionalNumber(value)`: the number unless absent, wrong-typed or
NaN. -/
def parseOptionalNumber : JSValue → Option ℚ
  | .num q => some q
  | _ => none

/-- The delivery-status enumeration of `src/core/types/index.ts`. -/
inductive MessageStatus where
  | pending
  | sent
  | delivered
  | read
  | played
  | error
deriving DecidableEq, Repr

/-- Embeds `parseMessageStatus(ack)`: total lookup {0,1,2,3,4} with every other
input (including NaN and non-numbers) defaulting to pending. -/
def parseMessageStatus : JSValue → MessageStatus
  | .num q =>
      if q = 0 then .pending
      else if q = 1 then .sent
      else if q = 2 then .delivered
      else if q = 3 then .read
      else if q = 4 then .played
      else .pending
  | _ => .pending

/-- The closed attachment-type enumeration. -/
inductive AttachmentType where
  | image
  | video
  | audio
  | document
  | sticker
  | contact
  | location
deriving DecidableEq, Repr

/-- Embeds `parseAttachmentType(type)`: one of the seven closed string values, else
null. -/
def parseAttachmentType : JSValue → Option AttachmentType
  | .str s =>
      if s = "image" then some .image
      else if s = "video" then some .video
      else if s = "audio" then some .audio
      else if s = "document" then some .document
      else if s = "sticker" then some .sticker
      else if s = "contact" then some .contact
      else if s = "location" then some .location
      else none
  | _ => none

/-- Mirror of `MessageSender` in `src/core/types/index.ts`. -/
structure MessageSender where
  id : String
  name : String
  pushName : Option String
  isContact : Bool
deriving DecidableEq, Repr

/-- Mirror of `Attachment` in `src/core/types/index.ts`. -/
structure Attachment where
  id : String
  type : AttachmentType
  url : Option String
  mimeType : String
  fileName : Option String
  fileSize : Option ℚ
  thumbnailUrl : Option String
  duration : Option ℚ
  width : Option ℚ
  height : Option ℚ
deriving DecidableEq, Repr

/-- Mirror of `NormalizedMessage` in `src/core/types/index.ts`. -/
structure NormalizedMessage where
  id : String
  timestamp : ℚ
  sender : MessageSender
  body : String
  isFromMe : Bool
  quotedMessageId : Option String
  attachments : List Attachment
  status : MessageStatus
  isForwarded : Bool
  isStarred : Bool
deriving DecidableEq, Repr

/-- Embeds `parseSender(props)` from `src/core/parsers/message-parser.ts`. -/
def parseSender (props : JSValue) : Result MessageSender ParseError :=
  match props with
  | .obj fields =>
      let idv := lookupField fields "id"
      if isNullOrUndef idv then
        .err ⟨.MISSING_REQUIRED_FIELD, "Sender ID is required"⟩
      else
        match parseString idv "sender.id" with
        | .err e => .err e
        | .ok idStr =>
            .ok { id := idStr
                  name := (parseOptionalString (lookupField fields "name")).getD idStr
                  pushName := parseOptionalString (lookupField fields "pushname")
                  isContact := parseBoolean (lookupField fields "isContact") }
  | _ => .err ⟨.INVALID_PROPS, "Sender props must be an object"⟩

/-- Embeds `parseAttachment(props)`; `freshId` is the value `crypto.randomUUID()`
returns for this call (the unique-identifier generator of spec §6, passed
explicitly). -/
def parseAttachment (freshId : String) (props : JSValue) :
    Result Attachment ParseError :=
  match props with
  | .obj fields =>
      match parseAttachmentType (lookupField fields "type") with
      | none => .err ⟨.INVALID_PROPS, "Invalid attachment type"⟩
      | some ty =>
          .ok { id := freshId
                type := ty
                url := parseOptionalString (lookupField fields "url")
                mimeType := (parseOptionalString (lookupField fields "mimetype")).getD
                  "application/octet-stream"
                fileName := parseOptionalString (lookupField fields "filename")
                fileSize := parseOptionalNumber (lookupField fields "size")
                thumbnailUrl := none
                duration := parseOptionalNumber (lookupField fields "duration")
                width := parseOptionalNumber (lookupField fields "width")
                height := parseOptionalNumber (lookupField fields "height") }
  | _ => .err ⟨.INVALID_PROPS, "Attachment props must be an object"⟩

/-- The nested `quotedMsg` resolution inside `parseMessage`: the `id` field
of `quotedMsg` when that value is a (non-null) object, else a null value. -/
def quotedIdValue (fields : List (String × JSValue)) : JSValue :=
  match lookupField fields "quotedMsg" with
  | .obj qf => lookupField qf "id"
  | _ => .null

/-- The attachments list `parseMessage` accumulates: at most one entry,
from `mediaData` when present, with a nested parse failure swallowed. -/
def messageAttachments (freshId : String)
    (fields : List (String × JSValue)) : List Attachment :=
  if isNullOrUndef (lookupField fields "mediaData") then []
  else
    match parseAttachment freshId (lookupField fields "mediaData") with
    | .ok a => [a]
    | .err _ => []

/-- The record `parseMessage` returns on its success path, with the inline
sender literal of the source (never built through `parseSender`). -/
def buildMessage (freshId : String) (fields : List (String × JSValue))
    (idStr : String) (ts : ℚ) : NormalizedMessage :=
  { id := idStr
    timestamp := ts
    sender := { id := (parseOptionalString (lookupField fields "from")).getD "unknown"
                name := (parseOptionalString (lookupField fields "from")).getD "Unknown"
                pushName := none
                isContact := false }
    body := (parseOptionalString (lookupField fields "body")).getD ""
    isFromMe := parseBoolean (lookupField fields "self")
    quotedMessageId := parseOptionalString (quotedIdValue fields)
    attachments := messageAttachments freshId fields
    status := parseMessageStatus (lookupField fields "ack")
    isForwarded := parseBoolean (lookupField fields "isForwarded")
    isStarred := parseBoolean (lookupField fields "isStarred") }

/-- Embeds `parseMessage(props)` from `src/core/parsers/message-parser.ts`;
`freshId` is the identifier a nested `parseAttachment` call would draw. -/
def parseMessage (freshId : String) (props : JSValue) :
    Result NormalizedMessage ParseError :=
  match props with
  | .obj fields =>
      if isNullOrUndef (lookupField fields "id") then
        .err ⟨.MISSING_REQUIRED_FIELD, "Message ID is required"⟩
      else if isNullOrUndef (lookupField fields "t") then
        .err ⟨.MISSING_REQUIRED_FIELD, "Message timestamp is required"⟩
      else
        match parseString (lookupField fields "id") "id" with
        | .err e => .err e
        | .ok idStr =>
            match parseNumber (lookupField fields "t") "timestamp" with
            | .err e => .err e
            | .ok ts => .ok (buildMessage freshId fields idStr ts)
  | _ => .err ⟨.INVALID_PROPS, "Message props must be an object"⟩

/-! ## Rate limiter (`src/shell/anti-detection/rate-limiter.ts`) -/

/-- Mirror of `RateLimiterConfig` (pauseDuration flattened to its min/max bounds). -/
structure RateLimiterConfig where
  maxTokens : ℚ
  refillRate : ℚ
  pauseInterval : ℚ
  pauseDurationMin : ℚ
  pauseDurationMax : ℚ
deriving DecidableEq, Repr

/-- Mirror of `RateLimiterState`: the single mutable record of the closure. -/
structure RateLimiterState where
  tokens : ℚ
  lastRefill : ℚ
  lastPauseCheck : ℚ
  pausedUntil : Option ℚ
deriving DecidableEq, Repr

/-- The state `createRateLimiter` builds at instant `now`. -/
def initialState (cfg : RateLimiterConfig) (now : ℚ) : RateLimiterState :=
  { tokens := cfg.maxTokens
    lastRefill := now
    lastPauseCheck := now
    pausedUntil := none }

/-- Embeds `refillTokens()`: adds `elapsed * refillRate` capped at `maxTokens` and
advances `lastRefill` to `now`. -/
def refillTokens (cfg : RateLimiterConfig) (s : RateLimiterState)
    (now : ℚ) : RateLimiterState :=
  { s with
    tokens := min cfg.maxTokens (s.tokens + (now - s.lastRefill) * cfg.refillRate)
    lastRefill := now }

/-- Embeds `checkMandatoryPause()`: when the interval since `lastPauseCheck` has
elapsed, arms `pausedUntil := now + min + rand * (max - min)` (with `rand`
the `Math.random()` draw) and sets `lastPauseCheck := now`, unconditionally
overwriting any previous pause window. -/
def checkMandatoryPause (cfg : RateLimiterConfig) (s : RateLimiterState)
    (now rand : ℚ) : RateLimiterState :=
  if now - s.lastPauseCheck ≥ cfg.pauseInterval then
    { s with
      pausedUntil := some (now + (cfg.pauseDurationMin +
        rand * (cfg.pauseDurationMax - cfg.pauseDurationMin)))
      lastPauseCheck := now }
  else s

/-- Embeds `isPaused()`: also lazily clears an expired window as a side effect. -/
def isPausedStep (s : RateLimiterState) (now : ℚ) :
    Bool × RateLimiterState :=
  match s.pausedUntil with
  | none => (false, s)
  | some p => if now ≥ p then (false, { s with pausedUntil := none }) else (true, s)

/-- Embeds `tryConsume(count)` at instant `now` with `Math.random()` draw `rand`:
mandatory-pause check, active-pause gate, refill, then the all-or-nothing
debit. -/
def tryConsume (cfg : RateLimiterConfig) (s : RateLimiterState)
    (now rand count : ℚ) : Bool × RateLimiterState :=
  let s1 := checkMandatoryPause cfg s now rand
  let ps := isPausedStep s1 now
  if ps.1 then (false, ps.2)
  else
    let s3 := refillTokens cfg ps.2 now
    if s3.tokens < count then (false, s3)
    else (true, { s3 with tokens := s3.tokens - count })

/-- Embeds `getTokens()` at instant `now`: refills, then reports the floor. -/
def getTokens (cfg : RateLimiterConfig) (s : RateLimiterState)
    (now : ℚ) : ℤ × RateLimiterState :=
  let s1 := refillTokens cfg s now
  (⌊s1.tokens⌋, s1)

/-! ## Drift-fingerprint hash (`src/shell/anti-detection/version-guard.ts`) -/

/-- Wrap an integer to the signed 32-bit range, as JS `| 0` does. -/
def toInt32 (x : ℤ) : ℤ := (x + 2 ^ 31) % 2 ^ 32 - 2 ^ 31

/-- One step of the source's reduce:
`((acc << 5) - acc + code) | 0`, with the shift itself truncating to a
signed 32-bit value before the exact float subtraction and addition. -/
def jsHashStep (acc code : ℤ) : ℤ :=
  toInt32 (toInt32 (toInt32 acc * 32) - acc + code)

/-- One step of the spec's polynomial rolling hash:
`acc = acc * 31 + charCode`, wrapped to a 32-bit signed integer. -/
def specHashStep (acc code : ℤ) : ℤ := toInt32 (31 * acc + code)

/-- The UTF code points of a string as integers (the `charCodeAt` sequence
for the strings the probes produce). -/
def charCodes (s : String) : List ℤ := s.data.map (fun c => (c.toNat : ℤ))

/-- Hexadecimal rendering of the final 32-bit value, as JS
`hash.toString(16)`: a leading minus sign and the magnitude in base 16. -/
def hashToHex (n : ℤ) : String :=
  if n < 0 then "-" ++ String.mk (Nat.toDigits 16 n.natAbs)
  else String.mk (Nat.toDigits 16 n.natAbs)

/-- Embeds `generateDomHash(selectors)` reduced to its pure tail: the already
encoded probe segments are joined with `"|"` and folded with the source's
step function from 0, then rendered in hex. -/
def generateDomHash (parts : List String) : String :=
  hashToHex ((charCodes (String.intercalate "|" parts)).foldl jsHashStep 0)

/-- The same fingerprint as the spec words it: the polynomial rolling hash
`acc = acc * 31 + charCode` wrapped to 32 bits at each step, over the same
joined segment string, rendered in hex. -/
def generateDomHashSpec (parts : List String) : String :=
  hashToHex ((charCodes (String.intercalate "|" parts)).foldl specHashStep 0)

/-! ## Concrete fixtures used by witnesses -/

/-- A sender property bag whose identifier is present but numeric. -/
def badSenderFields : List (String × JSValue) := [("id", JSValue.num 5)]

/-- A sender property bag with a string identifier and no name. -/
def goodSenderFields : List (String × JSValue) := [("id", JSValue.str "u1")]

/-- A message property bag with the two required fields only. -/
def msgFieldsW : List (String × JSValue) :=
  [("id", JSValue.str "x"), ("t", JSValue.num 1)]

/-- A message property bag whose `mediaData` parses to an attachment. -/
def msgFieldsMedia : List (String × JSValue) :=
  [("id", JSValue.str "x"), ("t", JSValue.num 1),
   ("mediaData", JSValue.obj [("type", JSValue.str "image")])]

/-- The concrete predicate `n == 2` used by traversal witnesses. -/
def isTwo (n : ℕ) : Bool := n == 2

/-- The concrete predicate `n == 9` (matching nothing in the fixtures). -/
def isNine (n : ℕ) : Bool := n == 9

/-- A small concrete fiber tree:
root 1 with child 2 (which has sibling 3 with child 5) and root sibling 4. -/
def treeW : FiberTree ℕ :=
  .node 1
    (.node 2 .nil (.node 3 (.node 5 .nil .nil) .nil))
    (.node 4 .nil .nil)

/-- The rate-limiter configuration of the C7 scenario (the values the
repository's own test suite uses). -/
def cfgC7 : RateLimiterConfig :=
  { maxTokens := 10
    refillRate := 1/100
    pauseInterval := 60000
    pauseDurationMin := 1000
    pauseDurationMax := 2000 }

/-- A configuration with a short mandatory-pause interval, for the C8
witness. -/
def cfgC8 : RateLimiterConfig :=
  { maxTokens := 100
    refillRate := 1/10
    pauseInterval := 1000
    pauseDurationMin := 500
    pauseDurationMax := 700 }

/-- A state with a pause window already active at instant 1000, whose
`lastPauseCheck` is nevertheless one full interval old. -/
def stateC8 : RateLimiterState :=
  { tokens := 100
    lastRefill := 0
    lastPauseCheck := 0
    pausedUntil := some 1200 }

/-! ## Theorems -/

theorem jsHashStep_eq_specHashStep (acc code : ℤ) :
    jsHashStep acc code = specHashStep acc code := by
  unfold jsHashStep specHashStep toInt32
  omega

/-- C9: for every sequence of probe segments, the drift fingerprint computed
by folding `((acc << 5) - acc + charCode) | 0` over the delimiter-joined
segment string equals the spec's rolling hash `acc = acc * 31 + charCode`
wrapped to a 32-bit signed integer at each step, rendered in hexadecimal —
the two hash definitions agree on all inputs. -/
theorem C9_domHash_agrees (parts : List String) :
    generateDomHash parts = generateDomHashSpec parts := by
  unfold generateDomHash generateDomHashSpec
  have h : jsHashStep = specHashStep :=
    funext fun a => funext fun c => jsHashStep_eq_specHashStep a c
  rw [h]

/-- Witness for C9 at a concrete segment list. -/
theorem C9_witness :
    generateDomHash ["div:a,b:", "NOT_FOUND"] =
      generateDomHashSpec ["div:a,b:", "NOT_FOUND"] :=
  C9_domHash_agrees ["div:a,b:", "NOT_FOUND"]

/-- C5: `parseMessage({})` fails with missing-required-field (identifier),
`parseMessage({id:"x"})` fails with missing-required-field for the missing
timestamp, `parseMessage(null)` fails with invalid-props, and the two
missing-field errors carry distinct messages, so a caller can distinguish
them. -/
theorem C5_parseMessage_required_fields (fid : String) :
    parseMessage fid (JSValue.obj []) =
      .err ⟨.MISSING_REQUIRED_FIELD, "Message ID is required"⟩ ∧
    parseMessage fid (JSValue.obj [("id", JSValue.str "x")]) =
      .err ⟨.MISSING_REQUIRED_FIELD, "Message timestamp is required"⟩ ∧
    parseMessage fid JSValue.null =
      .err ⟨.INVALID_PROPS, "Message props must be an object"⟩ ∧
    ("Message ID is required" : String) ≠ "Message timestamp is required" :=
  ⟨rfl, rfl, rfl, by decide⟩

/-- Witness for C5 at a concrete fresh-identifier value. -/
theorem C5_witness :
    parseMessage "" (JSValue.obj []) =
      .err ⟨.MISSING_REQUIRED_FIELD, "Message ID is required"⟩ :=
  (C5_parseMessage_required_fields "").1

/-- C4 counterexample: a property bag that IS an object and whose
identifier IS present (a number) makes `parseSender` fail with
invalid-props, where the claim says it should succeed. -/
theorem C4_counterexample :
    parseSender (JSValue.obj badSenderFields) =
      .err ⟨.INVALID_PROPS, "Expected string for sender.id, got number"⟩ ∧
    typeofStr (JSValue.obj badSenderFields) = "object" ∧
    JSValue.obj badSenderFields ≠ JSValue.null ∧
    isNullOrUndef (lookupField badSenderFields "id") = false :=
  ⟨rfl, rfl, fun h => JSValue.noConfusion h, rfl⟩

/-- C4 (amended): `parseSender` fails with invalid-props if props is not an
object, fails with missing-required-field if the identifier is null or
absent, fails with invalid-props if an identifier is present but not a
string, and succeeds when the identifier is a string — returning the
identifier, a display name falling back to the identifier, an optional
push-name, and a contact flag coerced by `parseBoolean` (the spec's
`coerceBoolean`). -/
theorem C4_parseSender_characterization (props : JSValue) :
    ((∀ fields, props ≠ JSValue.obj fields) →
      parseSender props = .err ⟨.INVALID_PROPS, "Sender props must be an object"⟩) ∧
    (∀ fields, props = JSValue.obj fields →
      isNullOrUndef (lookupField fields "id") = true →
      parseSender props = .err ⟨.MISSING_REQUIRED_FIELD, "Sender ID is required"⟩) ∧
    (∀ fields, props = JSValue.obj fields →
      isNullOrUndef (lookupField fields "id") = false →
      (∀ s, lookupField fields "id" ≠ JSValue.str s) →
      parseSender props = .err ⟨.INVALID_PROPS,
        "Expected string for sender.id, got " ++ typeofStr (lookupField fields "id")⟩) ∧
    (∀ fields s, props = JSValue.obj fields →
      lookupField fields "id" = JSValue.str s →
      parseSender props = .ok
        { id := s
          name := (parseOptionalString (lookupField fields "name")).getD s
          pushName := parseOptionalString (lookupField fields "pushname")
          isContact := parseBoolean (lookupField fields "isContact") }) := by
  refine ⟨?_, ?_, ?_, ?_⟩
  · intro hno
    cases props with
    | obj fields => exact absurd rfl (hno fields)
    | null => rfl
    | undef => rfl
    | bool b => rfl
    | num q => rfl
    | nan => rfl
    | str s => rfl
  · rintro fields rfl hn
    simp [parseSender, hn]
  · rintro fields rfl hn hs
    cases hv : lookupField fields "id" with
    | str s => exact absurd hv (hs s)
    | null => rw [hv] at hn; exact absurd hn (by simp [isNullOrUndef])
    | undef => rw [hv] at hn; exact absurd hn (by simp [isNullOrUndef])
    | bool b => simp [parseSender, hv, isNullOrUndef, parseString, typeofStr]
    | num q => simp [parseSender, hv, isNullOrUndef, parseString, typeofStr]
    | nan => simp [parseSender, hv, isNullOrUndef, parseString, typeofStr]
    | obj f => simp [parseSender, hv, isNullOrUndef, parseString, typeofStr]
  · rintro fields s rfl hv
    simp [parseSender, hv, isNullOrUndef, parseString]

/-- Witness for C4's amended theorem: the success branch at a concrete
sender bag. -/
theorem C4_witness :
    parseSender (JSValue.obj goodSenderFields) =
      .ok { id := "u1", name := "u1", pushName := none, isContact := false } := by
  have h := (C4_parseSender_characterization (JSValue.obj goodSenderFields)).2.2.2
    goodSenderFields "u1" rfl rfl
  simpa using h

/-- C7: with `maxTokens = 10`, `refillRate = 0.01/ms` (and the test suite's
pause configuration), consuming 10 tokens at construction time and reading
`getTokens` 1000 ms later yields 10 — the refill is capped at `maxTokens`
(fourth conjunct: capping holds for every refill) — and `tryConsume(11)` at
full capacity returns false leaving the token count at 10; in general a
consumption that fails for insufficient tokens debits nothing (last
conjunct: the state is exactly the refilled state). -/
theorem C7_rate_limiter_refill_cap_all_or_nothing :
    (∀ t0 rand : ℚ,
      (tryConsume cfgC7 (initialState cfgC7 t0) t0 rand 10).1 = true) ∧
    (∀ t0 rand : ℚ,
      (getTokens cfgC7 ((tryConsume cfgC7 (initialState cfgC7 t0) t0 rand 10).2)
        (t0 + 1000)).1 = 10) ∧
    (∀ t0 rand : ℚ,
      (tryConsume cfgC7 (initialState cfgC7 t0) t0 rand 11).1 = false ∧
      (tryConsume cfgC7 (initialState cfgC7 t0) t0 rand 11).2.tokens = 10) ∧
    (∀ (cfg : RateLimiterConfig) (s : RateLimiterState) (now : ℚ),
      (refillTokens cfg s now).tokens ≤ cfg.maxTokens) ∧
    (∀ (cfg : RateLimiterConfig) (s : RateLimiterState) (now rand count : ℚ),
      (isPausedStep (checkMandatoryPause cfg s now rand) now).1 = false →
      (refillTokens cfg (isPausedStep (checkMandatoryPause cfg s now rand) now).2
          now).tokens < count →
      tryConsume cfg s now rand count =
        (false, refillTokens cfg
          (isPausedStep (checkMandatoryPause cfg s now rand) now).2 now)) := by
  refine ⟨?_, ?_, ?_, ?_, ?_⟩
  · intro t0 rand
    norm_num [tryConsume, checkMandatoryPause, isPausedStep, refillTokens,
      initialState, cfgC7]
  · intro t0 rand
    norm_num [tryConsume, checkMandatoryPause, isPausedStep, refillTokens,
      initialState, getTokens, cfgC7]
  · intro t0 rand
    norm_num [tryConsume, checkMandatoryPause, isPausedStep, refillTokens,
      initialState, cfgC7]
  · intro cfg s now
    simp [refillTokens]
  · intro cfg s now rand count h1 h2
    simp [tryConsume, h1, h2]

/-- Witness for C7: the no-partial-debit conjunct at a concrete call. -/
theorem C7_witness :
    (isPausedStep (checkMandatoryPause cfgC7 (initialState cfgC7 0) 0 0) 0).1 = false ∧
    (refillTokens cfgC7
      (isPausedStep (checkMandatoryPause cfgC7 (initialState cfgC7 0) 0 0) 0).2
      0).tokens < 11 ∧
    tryConsume cfgC7 (initialState cfgC7 0) 0 0 11 =
      (false, refillTokens cfgC7
        (isPausedStep (checkMandatoryPause cfgC7 (initialState cfgC7 0) 0 0) 0).2 0) :=
  ⟨by norm_num [isPausedStep, checkMandatoryPause, initialState, cfgC7],
   by norm_num [isPausedStep, checkMandatoryPause, initialState, refillTokens, cfgC7],
   C7_rate_limiter_refill_cap_all_or_nothing.2.2.2.2 cfgC7
     (initialState cfgC7 0) 0 0 11
     (by norm_num [isPausedStep, checkMandatoryPause, initialState, cfgC7])
     (by norm_num [isPausedStep, checkMandatoryPause, initialState, refillTokens, cfgC7])⟩

/-- C8: whenever `tryConsume` runs with the wall clock at least
`pauseInterval` past `lastPauseCheck`, a new pause window is armed with a
duration inside the configured `[min, max]` range and `lastPauseCheck`
advances to `now` — for every prior state (so also when a pause is already
active, whose `pausedUntil` the new window overwrites) and for every
requested count (the consumption itself always fails in that call, so the
arming is independent of consumption success). -/
theorem C8_mandatory_pause_arming (cfg : RateLimiterConfig)
    (s : RateLimiterState) (now rand count : ℚ)
    (h0 : 0 ≤ rand) (h1 : rand ≤ 1)
    (h2 : 0 < cfg.pauseDurationMin)
    (h3 : cfg.pauseDurationMin ≤ cfg.pauseDurationMax)
    (h4 : now - s.lastPauseCheck ≥ cfg.pauseInterval) :
    (tryConsume cfg s now rand count).2.lastPauseCheck = now ∧
    (tryConsume cfg s now rand count).2.pausedUntil =
      some (now + (cfg.pauseDurationMin +
        rand * (cfg.pauseDurationMax - cfg.pauseDurationMin))) ∧
    cfg.pauseDurationMin ≤
      cfg.pauseDurationMin + rand * (cfg.pauseDurationMax - cfg.pauseDurationMin) ∧
    cfg.pauseDurationMin + rand * (cfg.pauseDurationMax - cfg.pauseDurationMin) ≤
      cfg.pauseDurationMax ∧
    (tryConsume cfg s now rand count).1 = false := by
  have hd0 : 0 ≤ rand * (cfg.pauseDurationMax - cfg.pauseDurationMin) :=
    mul_nonneg h0 (by linarith)
  have hdm : rand * (cfg.pauseDurationMax - cfg.pauseDurationMin) ≤
      cfg.pauseDurationMax - cfg.pauseDurationMin := by nlinarith
  have hnp : ¬ now ≥ now + (cfg.pauseDurationMin +
      rand * (cfg.pauseDurationMax - cfg.pauseDurationMin)) := by
    push_neg
    linarith
  simp only [tryConsume, checkMandatoryPause, if_pos h4, isPausedStep]
  simp only [if_neg hnp]
  refine ⟨rfl, rfl, by linarith, by linarith, rfl⟩

/-- Witness for C8: a state with an active pause window (`pausedUntil =
1200`) at instant 1000 still gets a fresh window overwriting it. -/
theorem C8_witness :
    (tryConsume cfgC8 stateC8 1000 (1/2) 1).2.lastPauseCheck = 1000 ∧
    (tryConsume cfgC8 stateC8 1000 (1/2) 1).2.pausedUntil =
      some (1000 + (cfgC8.pauseDurationMin +
        1/2 * (cfgC8.pauseDurationMax - cfgC8.pauseDurationMin))) ∧
    (tryConsume cfgC8 stateC8 1000 (1/2) 1).1 = false := by
  have h := C8_mandatory_pause_arming cfgC8 stateC8 1000 (1/2) 1
    (by norm_num) (by norm_num)
    (by norm_num [cfgC8]) (by norm_num [cfgC8])
    (by norm_num [cfgC8, stateC8])
  exact ⟨h.1, h.2.1, h.2.2.2.2⟩

theorem parseString_ok_iff (v : JSValue) (f s : String) :
    parseString v f = .ok s ↔ v = .str s := by
  cases v <;> simp [parseString]

theorem parseNumber_ok_iff (v : JSValue) (f : String) (q : ℚ) :
    parseNumber v f = .ok q ↔ v = .num q := by
  cases v <;> simp [parseNumber]

theorem parseAttachment_nullish (fid : String) (v : JSValue)
    (h : isNullOrUndef v = true) :
    parseAttachment fid v = .err ⟨.INVALID_PROPS, "Attachment props must be an object"⟩ := by
  cases v <;> first | rfl | simp [isNullOrUndef] at h

/-- Inversion of the success path of `parseMessage`: the input was an object
with a string `id` and a non-NaN numeric `t`, and the result is exactly the
`buildMessage` record. -/
theorem parseMessage_ok_inv (fid : String) (props : JSValue)
    (m : NormalizedMessage) (h : parseMessage fid props = .ok m) :
    ∃ fields s q, props = JSValue.obj fields ∧
      lookupField fields "id" = JSValue.str s ∧
      lookupField fields "t" = JSValue.num q ∧
      m = buildMessage fid fields s q := by
  cases props with
  | obj fields =>
      simp only [parseMessage] at h
      split at h
      · exact absurd h (by simp)
      · split at h
        · exact absurd h (by simp)
        · split at h
          · exact absurd h (by simp)
          · rename_i idStr heq
            split at h
            · exact absurd h (by simp)
            · rename_i ts heq2
              have hid := (parseString_ok_iff _ _ _).mp heq
              have ht := (parseNumber_ok_iff _ _ _).mp heq2
              injection h with h
              exact ⟨fields, idStr, ts, rfl, hid, ht, h.symm⟩
  | null => exact absurd h (by simp [parseMessage])
  | undef => exact absurd h (by simp [parseMessage])
  | bool b => exact absurd h (by simp [parseMessage])
  | num q => exact absurd h (by simp [parseMessage])
  | nan => exact absurd h (by simp [parseMessage])
  | str s => exact absurd h (by simp [parseMessage])

/-- C6: for every props object with a string identifier and a (non-NaN)
numeric timestamp, `parseMessage` succeeds, its attachments list has at most
one entry, a successful `parseAttachment` on the media-data field yields
exactly that one attachment, and a failed `parseAttachment` (which includes
the media-data field being absent) is swallowed, yielding zero attachments
instead of failing the message. -/
theorem C6_parseMessage_attachments (fid : String)
    (fields : List (String × JSValue)) (s : String) (q : ℚ)
    (hid : lookupField fields "id" = JSValue.str s)
    (ht : lookupField fields "t" = JSValue.num q) :
    parseMessage fid (JSValue.obj fields) = .ok (buildMessage fid fields s q) ∧
    (buildMessage fid fields s q).attachments.length ≤ 1 ∧
    (∀ a, parseAttachment fid (lookupField fields "mediaData") = .ok a →
      (buildMessage fid fields s q).attachments = [a]) ∧
    (∀ e, parseAttachment fid (lookupField fields "mediaData") = .err e →
      (buildMessage fid fields s q).attachments = []) := by
  have hatt : (buildMessage fid fields s q).attachments =
      messageAttachments fid fields := rfl
  refine ⟨?_, ?_, ?_, ?_⟩
  · simp [parseMessage, hid, ht, isNullOrUndef, parseString, parseNumber]
  · rw [hatt]
    unfold messageAttachments
    split
    · simp
    · split <;> simp
  · intro a ha
    rw [hatt]
    unfold messageAttachments
    split
    · rename_i hm
      rw [parseAttachment_nullish fid _ hm] at ha
      exact absurd ha (by simp)
    · rw [ha]
  · intro e he
    rw [hatt]
    unfold messageAttachments
    split
    · rfl
    · rw [he]

/-- Witness for C6: a concrete message bag whose media-data parses, giving
exactly one attachment. -/
theorem C6_witness :
    parseMessage "uuid-1" (JSValue.obj msgFieldsMedia) =
      .ok (buildMessage "uuid-1" msgFieldsMedia "x" 1) ∧
    (buildMessage "uuid-1" msgFieldsMedia "x" 1).attachments.length ≤ 1 := by
  have h := C6_parseMessage_attachments "uuid-1" msgFieldsMedia "x" 1 rfl rfl
  exact ⟨h.1, h.2.1⟩

/-- C10: on every successful `parseMessage`, the embedded sender (built
inline, not through `parseSender`) has a null push-name and a false contact
flag, and when the `from` field is absent or not a string the sender's
identifier is "unknown" while its display name is "Unknown" — so the display
name differs from the identifier in that case. -/
theorem C10_inline_sender (fid : String) (props : JSValue)
    (m : NormalizedMessage) (h : parseMessage fid props = .ok m) :
    m.sender.pushName = none ∧ m.sender.isContact = false ∧
    (∀ fields, props = JSValue.obj fields →
      parseOptionalString (lookupField fields "from") = none →
      m.sender.id = "unknown" ∧ m.sender.name = "Unknown" ∧
      m.sender.id ≠ m.sender.name) := by
  obtain ⟨fields, s, q, rfl, hid, ht, rfl⟩ := parseMessage_ok_inv fid props m h
  refine ⟨rfl, rfl, ?_⟩
  rintro fields' hf hfrom
  injection hf with hf'
  subst hf'
  refine ⟨by simp [buildMessage, hfrom], by simp [buildMessage, hfrom], ?_⟩
  simp [buildMessage, hfrom]

/-- Witness for C10 at a concrete message bag with no `from` field. -/
theorem C10_witness :
    (buildMessage "u" msgFieldsW "x" 1).sender.pushName = none ∧
    (buildMessage "u" msgFieldsW "x" 1).sender.isContact = false ∧
    (buildMessage "u" msgFieldsW "x" 1).sender.id = "unknown" ∧
    (buildMessage "u" msgFieldsW "x" 1).sender.name = "Unknown" := by
  have h := C10_inline_sender "u" (JSValue.obj msgFieldsW)
    (buildMessage "u" msgFieldsW "x" 1) rfl
  have h3 := h.2.2 msgFieldsW rfl rfl
  exact ⟨h.1, h.2.1, h3.1, h3.2.1⟩

theorem upGo_ok_of_first_match {α : Type} (p : α → Bool) (maxDepth : ℕ) :
    ∀ (chain : List α) (d i : ℕ) (n : α), d + i ≤ maxDepth →
      chain[i]? = some n → p n = true →
      (∀ m ∈ chain.take i, p m = false) →
      traverseUpwardsGo p maxDepth chain d = .ok n := by
  intro chain
  induction chain with
  | nil => intro d i n _ h _ _; simp at h
  | cons c rest ih =>
      intro d i n hle hget hp hall
      cases i with
      | zero =>
          simp only [List.getElem?_cons_zero, Option.some.injEq] at hget
          subst hget
          simp only [traverseUpwardsGo]
          rw [if_neg (by omega), if_pos hp]
      | succ j =>
          have hpc : p c = false := hall c (by simp)
          simp only [traverseUpwardsGo]
          rw [if_neg (by omega), if_neg (by simp [hpc])]
          refine ih (d + 1) j n (by omega) (by simpa using hget) hp ?_
          intro m hm
          exact hall m (by simp [List.take_succ_cons]; right; exact hm)

theorem upGo_ok_inv {α : Type} (p : α → Bool) (maxDepth : ℕ) :
    ∀ (chain : List α) (d : ℕ) (n : α),
      traverseUpwardsGo p maxDepth chain d = .ok n →
      ∃ i, d + i ≤ maxDepth ∧ chain[i]? = some n ∧ p n = true ∧
        ∀ m ∈ chain.take i, p m = false := by
  intro chain
  induction chain with
  | nil => intro d n h; exact absurd h (by simp [traverseUpwardsGo])
  | cons c rest ih =>
      intro d n h
      simp only [traverseUpwardsGo] at h
      by_cases hd : d > maxDepth
      · rw [if_pos hd] at h; exact absurd h (by simp)
      · rw [if_neg hd] at h
        by_cases hpc : p c = true
        · rw [if_pos hpc] at h
          injection h with h
          subst h
          exact ⟨0, by omega, by simp, hpc, by simp⟩
        · have hpc' : p c = false := by simpa using hpc
          rw [if_neg (by simp [hpc'])] at h
          obtain ⟨i, hle, hget, hp, hall⟩ := ih (d + 1) n h
          refine ⟨i + 1, by omega, by simpa using hget, hp, ?_⟩
          intro m hm
          rw [List.take_succ_cons] at hm
          rcases List.mem_cons.mp hm with hm | hm
          · exact hm ▸ hpc'
          · exact hall m hm

theorem upGo_shape {α : Type} (p : α → Bool) (maxDepth : ℕ) :
    ∀ (chain : List α) (d : ℕ),
      (∃ n, traverseUpwardsGo p maxDepth chain d = .ok n) ∨
      (∃ msg, traverseUpwardsGo p maxDepth chain d =
        .err ⟨.TRAVERSAL_FAILED, msg⟩) := by
  intro chain
  induction chain with
  | nil => intro d; exact .inr ⟨_, rfl⟩
  | cons c rest ih =>
      intro d
      simp only [traverseUpwardsGo]
      by_cases hd : d > maxDepth
      · rw [if_pos hd]; exact .inr ⟨_, rfl⟩
      · rw [if_neg hd]
        by_cases hpc : p c = true
        · rw [if_pos hpc]; exact .inl ⟨c, rfl⟩
        · rw [if_neg (by simpa using hpc)]; exact ih (d + 1)

/-- C1: `traverseUpwards` walks the parent chain with the starting node at
depth 0 and returns the first predicate match; the depth cutoff precedes the
predicate test, so the first match at an index `≤ maxDepth` succeeds
(first conjunct), a first match exactly at index `maxDepth + 1` fails with
traversal-failed (second), exhausting the chain — a null parent — without a
match fails with traversal-failed (third), and with `maxDepth = 0` it
succeeds exactly when the predicate holds of the starting node itself
(fourth). -/
theorem C1_traverseUpwards_bounded_first_match :
    (∀ (α : Type) (chain : List α) (p : α → Bool) (maxDepth i : ℕ) (n : α),
      i ≤ maxDepth → chain[i]? = some n → p n = true →
      (∀ m ∈ chain.take i, p m = false) →
      traverseUpwards chain p maxDepth = .ok n) ∧
    (∀ (α : Type) (chain : List α) (p : α → Bool) (maxDepth : ℕ) (n : α),
      chain[maxDepth + 1]? = some n → p n = true →
      (∀ m ∈ chain.take (maxDepth + 1), p m = false) →
      ∃ msg, traverseUpwards chain p maxDepth = .err ⟨.TRAVERSAL_FAILED, msg⟩) ∧
    (∀ (α : Type) (chain : List α) (p : α → Bool) (maxDepth : ℕ),
      (∀ m ∈ chain, p m = false) →
      ∃ msg, traverseUpwards chain p maxDepth = .err ⟨.TRAVERSAL_FAILED, msg⟩) ∧
    (∀ (α : Type) (chain : List α) (p : α → Bool),
      (∃ n, traverseUpwards chain p 0 = .ok n) ↔
      (∃ n, chain.head? = some n ∧ p n = true)) := by
  refine ⟨?_, ?_, ?_, ?_⟩
  · intro α chain p maxDepth i n hle hget hp hall
    exact upGo_ok_of_first_match p maxDepth chain 0 i n (by omega) hget hp hall
  · intro α chain p maxDepth n hget hp hall
    rcases upGo_shape p maxDepth chain 0 with ⟨n', hok⟩ | ⟨msg, herr⟩
    · obtain ⟨i, hle, hget', hp', hall'⟩ := upGo_ok_inv p maxDepth chain 0 n' hok
      have hmem : n' ∈ chain.take (maxDepth + 1) := by
        have hti : (chain.take (maxDepth + 1))[i]? = some n' := by
          rw [List.getElem?_take]
          simpa [show i < maxDepth + 1 by omega] using hget'
        exact List.getElem?_mem hti
      exact absurd hp' (by simp [hall n' hmem])
    · exact ⟨msg, herr⟩
  · intro α chain p maxDepth hall
    rcases upGo_shape p maxDepth chain 0 with ⟨n', hok⟩ | ⟨msg, herr⟩
    · obtain ⟨i, _, hget', hp', _⟩ := upGo_ok_inv p maxDepth chain 0 n' hok
      exact absurd hp' (by simp [hall n' (List.getElem?_mem hget')])
    · exact ⟨msg, herr⟩
  · intro α chain p
    constructor
    · rintro ⟨n, hok⟩
      obtain ⟨i, hle, hget, hp, _⟩ := upGo_ok_inv p 0 chain 0 n hok
      have hi : i = 0 := by omega
      subst hi
      exact ⟨n, by simpa [List.head?_eq_getElem?] using hget, hp⟩
    · rintro ⟨n, hhead, hp⟩
      refine ⟨n, upGo_ok_of_first_match p 0 chain 0 0 n (by omega) ?_ hp (by simp)⟩
      simpa [List.head?_eq_getElem?] using hhead

/-- Witness for C1: on the chain `[1, 2, 3]` the first match of `n == 2` is
at depth 1 and `maxDepth = 1` reaches it. -/
theorem C1_witness :
    traverseUpwards [1, 2, 3] isTwo 1 = .ok 2 :=
  C1_traverseUpwards_bounded_first_match.1 ℕ [1, 2, 3] isTwo 1 1 2
    (by decide) (by decide) (by decide) (by decide)

theorem downGo_ok_iff {α : Type} (p : α → Bool) (maxDepth : ℕ) :
    ∀ (t : FiberTree α) (d : ℕ) (n : α),
      traverseDownwardsGo p maxDepth t d = .ok n ↔
        (boundedPreorder maxDepth t d).find? p = some n := by
  intro t
  induction t with
  | nil => intro d n; simp [traverseDownwardsGo, boundedPreorder]
  | node v c s ihc ihs =>
      intro d n
      simp only [traverseDownwardsGo, boundedPreorder]
      by_cases hd : d > maxDepth
      · rw [if_pos hd, if_pos hd]; simp
      · rw [if_neg hd, if_neg hd]
        by_cases hpv : p v = true
        · rw [if_pos hpv, List.find?_cons_of_pos _ hpv]
          simp
        · have hpv' : p v = false := by simpa using hpv
          rw [if_neg (by simp [hpv']), List.find?_cons_of_neg _ (by simp [hpv']),
            List.find?_append]
          cases hc : traverseDownwardsGo p maxDepth c (d + 1) with
          | ok n' =>
              rw [(ihc (d + 1) n').mp hc]
              simp
          | err e =>
              have hnone : (boundedPreorder maxDepth c (d + 1)).find? p = none := by
                cases hfc : (boundedPreorder maxDepth c (d + 1)).find? p with
                | none => rfl
                | some x =>
                    have hx := (ihc (d + 1) x).mpr hfc
                    rw [hc] at hx
                    exact absurd hx (by simp)
              rw [hnone]
              simpa using ihs (d + 1) n

theorem downGo_shape {α : Type} (p : α → Bool) (maxDepth : ℕ) :
    ∀ (t : FiberTree α) (d : ℕ),
      (∃ n, traverseDownwardsGo p maxDepth t d = .ok n) ∨
      (∃ msg, traverseDownwardsGo p maxDepth t d =
        .err ⟨.TRAVERSAL_FAILED, msg⟩) := by
  intro t
  induction t with
  | nil => intro d; exact .inr ⟨_, rfl⟩
  | node v c s ihc ihs =>
      intro d
      simp only [traverseDownwardsGo]
      by_cases hd : d > maxDepth
      · rw [if_pos hd]; exact .inr ⟨_, rfl⟩
      · rw [if_neg hd]
        by_cases hpv : p v = true
        · rw [if_pos hpv]; exact .inl ⟨v, rfl⟩
        · rw [if_neg (by simpa using hpv)]
          cases hc : traverseDownwardsGo p maxDepth c (d + 1) with
          | ok n' => exact .inl ⟨n', rfl⟩
          | err e => exact ihs (d + 1)

theorem preorderDepths_le {α : Type} :
    ∀ (t : FiberTree α) (d : ℕ) (x : α × ℕ),
      x ∈ preorderDepths t d → d ≤ x.2 := by
  intro t
  induction t with
  | nil => intro d x h; simp [preorderDepths] at h
  | node v c s ihc ihs =>
      intro d x h
      simp only [preorderDepths, List.mem_cons, List.mem_append] at h
      rcases h with rfl | h | h
      · simp
      · exact le_trans (by omega) (ihc (d + 1) x h)
      · exact le_trans (by omega) (ihs (d + 1) x h)

theorem boundedPreorder_eq_filter {α : Type} (maxDepth : ℕ) :
    ∀ (t : FiberTree α) (d : ℕ),
      boundedPreorder maxDepth t d =
        ((preorderDepths t d).filter
          (fun x => decide (x.2 ≤ maxDepth))).map Prod.fst := by
  intro t
  induction t with
  | nil => intro d; rfl
  | node v c s ihc ihs =>
      intro d
      simp only [boundedPreorder, preorderDepths]
      by_cases hd : d > maxDepth
      · rw [if_pos hd]
        have hall : ∀ x ∈ (v, d) ::
            (preorderDepths c (d + 1) ++ preorderDepths s (d + 1)),
            ¬ (fun x : α × ℕ => decide (x.2 ≤ maxDepth)) x = true := by
          intro x hx
          rcases List.mem_cons.mp hx with rfl | hx
          · simp; omega
          · rcases List.mem_append.mp hx with hx | hx
            · have := preorderDepths_le c (d + 1) x hx; simp; omega
            · have := preorderDepths_le s (d + 1) x hx; simp; omega
        rw [List.filter_eq_nil_iff.mpr hall]
        rfl
      · rw [if_neg hd]
        have hdm : d ≤ maxDepth := by omega
        simp [List.filter_cons, List.filter_append, hdm, ihc, ihs]

/-- C2: `traverseDownwards` is a depth-first pre-order search — current
node first, then the child subtree, then the sibling subtree, each
recursive step adding one to the depth counter — returning the first match
in this order among the nodes whose recursion depth does not exceed
`maxDepth` (first two conjuncts, via `find?` over `boundedPreorder`), and
failing with traversal-failed when no such node matches (third conjunct);
the last conjunct identifies the bounded visit order with the pre-order
node list filtered by depth. -/
theorem C2_traverseDownwards_preorder (α : Type) (t : FiberTree α)
    (p : α → Bool) (maxDepth : ℕ) :
    (∀ n, traverseDownwards t p maxDepth = .ok n ↔
      (boundedPreorder maxDepth t 0).find? p = some n) ∧
    ((boundedPreorder maxDepth t 0).find? p = none →
      ∃ msg, traverseDownwards t p maxDepth = .err ⟨.TRAVERSAL_FAILED, msg⟩) ∧
    boundedPreorder maxDepth t 0 =
      ((preorderDepths t 0).filter
        (fun x => decide (x.2 ≤ maxDepth))).map Prod.fst := by
  refine ⟨fun n => downGo_ok_iff p maxDepth t 0 n, ?_, boundedPreorder_eq_filter maxDepth t 0⟩
  intro hnone
  rcases downGo_shape p maxDepth t 0 with ⟨n, hok⟩ | ⟨msg, herr⟩
  · rw [(downGo_ok_iff p maxDepth t 0 n).mp hok] at hnone
    exact absurd hnone (by simp)
  · exact ⟨msg, herr⟩

/-- Witness for C2: on the fixture tree the pre-order first match of
`n == 2` is found, matching `find?` on the bounded pre-order list. -/
theorem C2_witness :
    traverseDownwards treeW isTwo 3 = .ok 2 :=
  ((C2_traverseDownwards_preorder ℕ treeW isTwo 3).1 2).mpr (by decide)

theorem collectGo_eq {α : Type} (p : α → Bool) (N : ℕ) :
    ∀ (t : FiberTree α) (acc : List α),
      collectNodesGo p N t acc =
        acc ++ ((preorder t).filter p).take (N - acc.length) := by
  intro t
  induction t with
  | nil => intro acc; simp [collectNodesGo, preorder]
  | node v c s ihc ihs =>
      intro acc
      simp only [collectNodesGo, preorder]
      by_cases hlen : acc.length ≥ N
      · rw [if_pos hlen]
        have h0 : N - acc.length = 0 := by omega
        simp [h0]
      · rw [if_neg hlen]
        have hN : N - acc.length = (N - acc.length - 1) + 1 := by omega
        by_cases hpv : p v = true
        · simp only [if_pos hpv, ihc, ihs]
          rw [List.filter_cons_of_pos hpv, List.filter_append, hN,
            List.take_succ_cons, List.take_append_eq_append_take]
          have h1 : N - (acc ++ [v]).length = N - acc.length - 1 := by
            simp only [List.length_append, List.length_cons, List.length_nil]
            omega
          rw [h1]
          have h2 : N - (acc ++ [v] ++
              ((preorder c).filter p).take (N - acc.length - 1)).length =
              N - acc.length - 1 - ((preorder c).filter p).length := by
            simp only [List.length_append, List.length_cons, List.length_nil,
              List.length_take]
            omega
          rw [h2]
          simp [List.append_assoc]
        · have hpv' : p v = false := by simpa using hpv
          simp only [if_neg (by simp [hpv'] : ¬ p v = true), ihc, ihs]
          rw [List.filter_cons_of_neg (by simp [hpv']), List.filter_append,
            List.take_append_eq_append_take]
          have h2 : N - (acc ++
              ((preorder c).filter p).take (N - acc.length)).length =
              N - acc.length - ((preorder c).filter p).length := by
            simp only [List.length_append, List.length_take]
            omega
          rw [h2]
          simp [List.append_assoc]

/-- C3: `collectNodes` with `maxNodes = N` returns exactly the first `N`
matches of the depth-first pre-order node list (first conjunct), hence a
list of length ≤ N (second), and of length < N only when it already holds
every match in the tree, i.e. when the full matching set is smaller than N
(third) — once N matches are collected nothing further is gathered. -/
theorem C3_collectNodes_bounded (α : Type) (t : FiberTree α)
    (p : α → Bool) (N : ℕ) :
    collectNodes t p N = ((preorder t).filter p).take N ∧
    (collectNodes t p N).length ≤ N ∧
    ((collectNodes t p N).length < N →
      collectNodes t p N = (preorder t).filter p ∧
      ((preorder t).filter p).length < N) := by
  have heq : collectNodes t p N = ((preorder t).filter p).take N := by
    have h := collectGo_eq p N t []
    simpa [collectNodes] using h
  refine ⟨heq, ?_, ?_⟩
  · rw [heq]
    simp [List.length_take]
  · intro hlt
    rw [heq] at hlt ⊢
    rw [List.length_take] at hlt
    have hfl : ((preorder t).filter p).length < N := by omega
    exact ⟨List.take_of_length_le (by omega), hfl⟩

/-- Witness for C3: the bound-reached conclusion at a concrete tree where
fewer matches exist than the bound allows. -/
theorem C3_witness :
    collectNodes treeW isTwo 5 = [2] ∧ (collectNodes treeW isTwo 5).length ≤ 5 := by
  have h := C3_collectNodes_bounded ℕ treeW isTwo 5
  exact ⟨by rw [h.1]; decide, h.2.1⟩

end Scraper
